import Mathlib

/-!
Verification development for the wayfire scene-graph core
(`src/core/scene.cpp`) and the IPC view-listing helper
(`plugins/ipc/stipc.cpp`).

Node identity (C++ `node_t*` / `node_ptr`) is modelled by a natural-number
id; two nodes are "the same reference" exactly when their ids coincide.
Parent back-references (`node_t::_parent`) are modelled as a map from node
id to the optional id of the owner.  Machine integers that matter
(`uint32_t layer = -1`) are modelled as `Nat` with the explicit wrap-around
value `2^32 - 1`.
-/

namespace wf
namespace scene

/-- The traversal verdict enum `wf::scene::iteration` from `scene.hpp`:
STOP aborts the whole traversal, ALL descends into children,
SKIP_CHILDREN continues with siblings only. -/
inductive iteration : Type where
  | STOP : iteration
  | ALL : iteration
  | SKIP_CHILDREN : iteration
deriving DecidableEq, Repr

/-- The result of a keyboard handler (`wf::keyboard_action`): CONSUME stops
event propagation, PASS lets the event continue to the next node. -/
inductive keyboard_action : Type where
  | CONSUME : keyboard_action
  | PASS : keyboard_action
deriving DecidableEq, Repr

/-- A scene-graph node (`wf::scene::node_t`).  A node carries its identity
(the C++ object address), the immutable `_is_structure` flag set at
construction, and the capability bitmask returned by `flags()`.
Inner nodes (`inner_node_t`) own an ordered list of children; view nodes
(`view_node_t`) and other leaves are distinguished only for visitor
dispatch purposes. -/
inductive node : Type where
  | inner : Nat → Bool → Nat → List node → node
  | view : Nat → Bool → Nat → node
  | generic : Nat → Bool → Nat → node

/-- The identity (C++ pointer value) of a node. -/
def node.id : node → Nat
  | node.inner i _ _ _ => i
  | node.view i _ _ => i
  | node.generic i _ _ => i

/-- `node_t::is_structure_node()`: the `_is_structure` flag set at
construction. -/
def node.is_structure_node : node → Bool
  | node.inner _ st _ _ => st
  | node.view _ st _ => st
  | node.generic _ st _ => st

/-- `node_t::flags()`: the capability bitmask. -/
def node.flags : node → Nat
  | node.inner _ _ fl _ => fl
  | node.view _ _ fl => fl
  | node.generic _ _ fl => fl

/-- The children list of a node (`inner_node_t::get_children()`); leaves
have none. -/
def node.get_children : node → List node
  | node.inner _ _ _ cs => cs
  | node.view _ _ _ => []
  | node.generic _ _ _ => []

/-- Modelled from the spec: the keyboard-focus-eligibility capability bit
(`node_flags::ACTIVE_KEYBOARD`, declared in `scene.hpp` which is not part
of the sources).  Its concrete value is irrelevant to the claims; only the
bit test `flags() & ACTIVE_KEYBOARD` matters. -/
def ACTIVE_KEYBOARD : Nat := 1

/-- `extract_structure_nodes` (scene.cpp): collect the raw pointers of the
structure nodes of a child list, in order.  Pointer vectors are modelled
as id lists. -/
def extract_structure_nodes (list : List node) : List Nat :=
  ((list.filter (fun n => n.is_structure_node)).map node.id)

/-- `inner_node_t::set_children_unchecked` (scene.cpp): set the `_parent`
of every node in the new list to this inner node, then store the list.
`self` is the id of the inner node, `parent` the global parent map; the
result is the new children list paired with the updated parent map.
Children dropped from the list keep their stale parent entry, exactly as
in the C++ code. -/
def set_children_unchecked (self : Nat) (parent : Nat → Option Nat)
    (new_list : List node) : List node × (Nat → Option Nat) :=
  (new_list,
   fun x => if x ∈ new_list.map node.id then some self else parent x)

/-- `floating_inner_node_t::set_children_list` (scene.cpp): compare the
structure-node subsequences of the current and the proposed list; on
mismatch fail (`false`) leaving children and parents untouched, otherwise
install the new list via `set_children_unchecked` and succeed. -/
def set_children_list (self : Nat) (children : List node)
    (parent : Nat → Option Nat) (new_list : List node) :
    Bool × List node × (Nat → Option Nat) :=
  if extract_structure_nodes children = extract_structure_nodes new_list then
    (true, set_children_unchecked self parent new_list)
  else
    (false, children, parent)

/-- `root_node_t::priv_t::handle_key` (scene.cpp): offer the key event to
each node of the active keyboard list in order, stopping after the first
handler that returns CONSUME.  `h` gives each node's
`keyboard_interaction().handle_keyboard_key` result; the function returns
the sequence of nodes whose handler was actually invoked, in invocation
order. -/
def handle_key (h : Nat → keyboard_action) : List Nat → List Nat
  | [] => []
  | n :: rest =>
    match h n with
    | keyboard_action.CONSUME => [n]
    | keyboard_action.PASS => n :: handle_key h rest

mutual
/-- `inner_node_t::find_node_at` (scene.cpp) together with the node-kind
dispatch: an inner node asks its children in list order and returns the
first non-empty answer, or none.  `lf` supplies the hit-test result of
leaf nodes (their overrides live outside `scene.cpp`; modelled from the
spec: "returns the first non-empty match, or empty if none match,
including leaves with no area containment").  The query point is the
second argument. -/
def find_node_at (lf : Nat → Nat → Option Nat) : node → Nat → Option Nat
  | node.inner _ _ _ cs, p => find_first lf cs p
  | node.view i _ _, p => lf i p
  | node.generic i _ _, p => lf i p

/-- The child loop of `inner_node_t::find_node_at`: return the first
child's non-empty result, else keep going; none if exhausted. -/
def find_first (lf : Nat → Nat → Option Nat) : List node → Nat → Option Nat
  | [], _ => none
  | c :: rest, p =>
    match find_node_at lf c p with
    | some r => some r
    | none => find_first lf rest p
end

/-- The visitor interface `wf::scene::visitor_t`: one callback per node
kind.  Visitors are stateful in C++ (e.g. the collector accumulates a
vector), so each callback threads an explicit state of type `σ`. -/
structure visitor_t (σ : Type) : Type where
  inner_node : σ → node → iteration × σ
  view_node : σ → node → iteration × σ
  generic_node : σ → node → iteration × σ

/-- Modelled from the spec: leaf dispatch of `node_t::visit` /
`view_node_t::visit` (declared outside `scene.cpp`).  A leaf invokes its
callback; STOP propagates, any other verdict lets traversal continue with
the remaining siblings (reported as ALL, a leaf having no children to
skip). -/
def leaf_result {σ : Type} : iteration × σ → iteration × σ
  | (iteration.STOP, s) => (iteration.STOP, s)
  | (iteration.ALL, s) => (iteration.ALL, s)
  | (iteration.SKIP_CHILDREN, s) => (iteration.ALL, s)

mutual
/-- `inner_node_t::visit` (scene.cpp): invoke the inner-node callback
first; STOP propagates immediately; ALL walks the children in list order,
a child's STOP aborting the loop and propagating; SKIP_CHILDREN — or
falling out of the child loop — returns ALL so that traversal continues
with the siblings. -/
def visit {σ : Type} (v : visitor_t σ) : node → σ → iteration × σ
  | node.inner i st fl cs, s =>
    match v.inner_node s (node.inner i st fl cs) with
    | (iteration.STOP, s1) => (iteration.STOP, s1)
    | (iteration.ALL, s1) =>
      match visit_children v cs s1 with
      | (true, s2) => (iteration.STOP, s2)
      | (false, s2) => (iteration.ALL, s2)
    | (iteration.SKIP_CHILDREN, s1) => (iteration.ALL, s1)
  | node.view i st fl, s => leaf_result (v.view_node s (node.view i st fl))
  | node.generic i st fl, s =>
    leaf_result (v.generic_node s (node.generic i st fl))

/-- The child loop of `inner_node_t::visit`: visit each child in order;
the Bool records whether some child returned STOP (aborting the loop). -/
def visit_children {σ : Type} (v : visitor_t σ) : List node → σ → Bool × σ
  | [], s => (false, s)
  | c :: rest, s =>
    match visit v c s with
    | (iteration.STOP, s1) => (true, s1)
    | (iteration.ALL, s1) => visit_children v rest s1
    | (iteration.SKIP_CHILDREN, s1) => visit_children v rest s1
end

/-- `output_node_t::output_node_t` (scene.cpp): a non-structural inner
node whose children are set to `{dynamic, _static}` in that order, both
freshly constructed structural floating inner nodes with no children. -/
def output_node_t (oid did sid : Nat) : node :=
  node.inner oid false 0 [node.inner did true 0 [], node.inner sid true 0 []]

/-- Modelled from the spec: the fixed layer enumeration {background,
bottom, workspace, top, unmanaged, lock, desktop-widget, minimized}
(`enum class layer` in `scene.hpp`), indexed 0..7 in that order with
`ALL_LAYERS` as its size. -/
def ALL_LAYERS : Nat := 8

/-- A fresh structural floating inner node for layer index `i`
(`std::make_shared<floating_inner_node_t>(true)` in the root
constructor); the layer index doubles as the node id. -/
def mk_layer (i : Nat) : node := node.inner i true 0 []

/-- The child-building loop of `root_node_t::root_node_t` (scene.cpp):
`for (int i = ALL_LAYERS - 1; i >= 0; i--) children.push_back(layers[i])`,
so `root_build k = [mk_layer (k-1), ..., mk_layer 0]`. -/
def root_build : Nat → List node
  | 0 => []
  | Nat.succ k => mk_layer k :: root_build k

/-- The children of a freshly constructed root node. -/
def root_children : List node := root_build ALL_LAYERS

/-- The parent map after the root constructor runs
`set_children_unchecked(children)`, starting from no attachments; `rid`
is the root's own id. -/
def root_parent (rid : Nat) : Nat → Option Nat :=
  (set_children_unchecked rid (fun _ => none) root_children).2

/-- `collect_active_nodes_t::try_push` (scene.cpp): append the node (by
identity) to the accumulator when its `ACTIVE_KEYBOARD` capability bit is
set. -/
def try_push (s : List Nat) (n : node) : List Nat :=
  if n.flags &&& ACTIVE_KEYBOARD ≠ 0 then s ++ [n.id] else s

/-- The collector visitor `collect_active_nodes_t` (scene.cpp): every
callback pushes the node if focus-eligible and returns ALL, never
short-circuiting. -/
def collect_active_nodes : visitor_t (List Nat) :=
  { inner_node := fun s n => (iteration.ALL, try_push s n),
    view_node := fun s n => (iteration.ALL, try_push s n),
    generic_node := fun s n => (iteration.ALL, try_push s n) }

/-- One collection pass as performed by `update_active_nodes`: run the
collector over the tree with a fresh accumulator and take the collected
id list. -/
def collect (root : node) : List Nat :=
  (visit collect_active_nodes root []).2

mutual
/-- Specification-level pre-order enumeration of a tree's nodes: the node
itself, then the children's enumerations in list order. -/
def preorder : node → List node
  | node.inner i st fl cs => node.inner i st fl cs :: preorder_list cs
  | node.view i st fl => [node.view i st fl]
  | node.generic i st fl => [node.generic i st fl]

/-- Pre-order enumeration of a forest, in list order. -/
def preorder_list : List node → List node
  | [] => []
  | c :: rest => preorder c ++ preorder_list rest
end

/-- The ids of the focus-eligible nodes of a node list, in order. -/
def active_ids (l : List node) : List Nat :=
  l.filterMap
    (fun n => if n.flags &&& ACTIVE_KEYBOARD ≠ 0 then some n.id else none)

/-- Specification-level description of one collection pass: the ids of
the focus-eligible nodes of the full pre-order enumeration. -/
def active_preorder (root : node) : List Nat :=
  active_ids (preorder root)

/-- A focus notification emitted by the diff step of
`update_active_nodes`. -/
inductive focus_event : Type where
  | leave : Nat → focus_event
  | enter : Nat → focus_event
deriving DecidableEq, Repr

/-- `root_node_t::priv_t::update_active_nodes` (scene.cpp): collect the
focus-eligible nodes, convert the previous and the new list to sets
(modelled by `dedup`; `std::set` iterates in an unspecified pointer
order, modelled here by first-occurrence order — the claims leave the
per-phase order open), emit a leave for each node only in the old set,
then an enter for each node only in the new set, and store the collected
list.  Returns the emitted notifications in order, paired with the new
stored active list. -/
def update_active_nodes (prev : List Nat) (root : node) :
    List focus_event × List Nat :=
  let collected := collect root
  let already_focused := prev.dedup
  let new_focused := collected.dedup
  ((already_focused.filter (fun x => decide (x ∉ new_focused))).map
      focus_event.leave ++
    (new_focused.filter (fun x => decide (x ∉ already_focused))).map
      focus_event.enter,
   collected)

/-- An instrumented visitor used to observe traversal order: every
callback logs the visited node's id and answers with the verdict
prescribed by the response function `r`. -/
def log_visitor (r : Nat → iteration) : visitor_t (List Nat) :=
  { inner_node := fun s n => (r n.id, s ++ [n.id]),
    view_node := fun s n => (r n.id, s ++ [n.id]),
    generic_node := fun s n => (r n.id, s ++ [n.id]) }

/-- The ids whose callbacks fire during a traversal of `n` under the
response function `r`, in invocation order. -/
def visit_log (r : Nat → iteration) (n : node) : List Nat :=
  (visit (log_visitor r) n []).2

/-- Whether visiting `n` under the response function `r` returns STOP
(aborting the enclosing child loop). -/
def stops (r : Nat → iteration) (n : node) : Bool :=
  decide ((visit (log_visitor r) n []).1 = iteration.STOP)

/-- The spec scenario for hit-testing: a root owning two output nodes
whose static and dynamic children lists are all empty. -/
def two_outputs_root : node :=
  node.inner 0 true 0 [output_node_t 1 2 3, output_node_t 4 5 6]

end scene

/-- Modelled from the spec: the workspace-manager layer bitmask constants
used by `stipc.cpp` (`LAYER_*`, declared outside the sources); one
distinct bit per layer, in the fixed enumeration order. -/
def LAYER_BACKGROUND : Nat := 1

/-- Modelled from the spec: see `LAYER_BACKGROUND`. -/
def LAYER_BOTTOM : Nat := 2

/-- Modelled from the spec: see `LAYER_BACKGROUND`. -/
def LAYER_WORKSPACE : Nat := 4

/-- Modelled from the spec: see `LAYER_BACKGROUND`. -/
def LAYER_TOP : Nat := 8

/-- Modelled from the spec: see `LAYER_BACKGROUND`. -/
def LAYER_UNMANAGED : Nat := 16

/-- Modelled from the spec: see `LAYER_BACKGROUND`. -/
def LAYER_LOCK : Nat := 32

/-- Modelled from the spec: see `LAYER_BACKGROUND`. -/
def LAYER_DESKTOP_WIDGET : Nat := 64

/-- Modelled from the spec: see `LAYER_BACKGROUND`. -/
def LAYER_MINIMIZED : Nat := 128

/-- `layer_to_string` (stipc.cpp): map a layer constant to its wire name;
the desktop-widget layer is reported as "dew", anything unrecognized as
"none". -/
def layer_to_string (layer : Nat) : String :=
  if layer = LAYER_BACKGROUND then "background"
  else if layer = LAYER_BOTTOM then "bottom"
  else if layer = LAYER_WORKSPACE then "workspace"
  else if layer = LAYER_TOP then "top"
  else if layer = LAYER_UNMANAGED then "unmanaged"
  else if layer = LAYER_LOCK then "lock"
  else if layer = LAYER_DESKTOP_WIDGET then "dew"
  else if layer = LAYER_MINIMIZED then "minimized"
  else "none"

/-- The layer field computed per view by `ipc_plugin_t::list_views`
(stipc.cpp): `uint32_t layer = -1` (i.e. `2^32 - 1`), overwritten by the
view's layer only when the view has an output, then rendered through
`layer_to_string`. -/
def view_layer_field (has_output : Bool) (view_layer : Nat) : String :=
  layer_to_string (if has_output then view_layer else 2 ^ 32 - 1)

end wf

namespace wf
namespace scene

theorem try_push_eq (s : List Nat) (n : node) :
    try_push s n = s ++ active_ids [n] := by
  simp only [try_push, active_ids, List.filterMap]
  split <;> simp_all

theorem active_ids_append (l1 l2 : List node) :
    active_ids (l1 ++ l2) = active_ids l1 ++ active_ids l2 := by
  simp [active_ids]

theorem collect_inner_app (s : List Nat) (n : node) :
    collect_active_nodes.inner_node s n = (iteration.ALL, try_push s n) := rfl

theorem collect_view_app (s : List Nat) (n : node) :
    collect_active_nodes.view_node s n = (iteration.ALL, try_push s n) := rfl

theorem collect_generic_app (s : List Nat) (n : node) :
    collect_active_nodes.generic_node s n = (iteration.ALL, try_push s n) := rfl

mutual

theorem collect_visit_eq : ∀ (n : node) (s : List Nat),
    visit collect_active_nodes n s =
      (iteration.ALL, s ++ active_ids (preorder n))
  | node.inner i st fl cs, s => by
    have hc := collect_children_eq cs (try_push s (node.inner i st fl cs))
    have key : try_push s (node.inner i st fl cs) ++
        active_ids (preorder_list cs) =
        s ++ active_ids (preorder (node.inner i st fl cs)) := by
      rw [try_push_eq, List.append_assoc, ← active_ids_append,
        List.singleton_append]
      simp only [preorder]
    simp only [visit, collect_inner_app, hc, key]
  | node.view i st fl, s => by
    simp [visit, collect_view_app, leaf_result, preorder, try_push_eq,
      active_ids_append]
  | node.generic i st fl, s => by
    simp [visit, collect_generic_app, leaf_result, preorder, try_push_eq,
      active_ids_append]

theorem collect_children_eq : ∀ (cs : List node) (s : List Nat),
    visit_children collect_active_nodes cs s =
      (false, s ++ active_ids (preorder_list cs))
  | [], s => by simp [visit_children, preorder_list, active_ids]
  | c :: rest, s => by
    have hv := collect_visit_eq c s
    have hr := collect_children_eq rest (s ++ active_ids (preorder c))
    simp only [visit_children, hv, hr, preorder_list, active_ids_append,
      List.append_assoc]

end

theorem log_inner_app (r : Nat → iteration) (s : List Nat) (n : node) :
    (log_visitor r).inner_node s n = (r n.id, s ++ [n.id]) := rfl

theorem log_view_app (r : Nat → iteration) (s : List Nat) (n : node) :
    (log_visitor r).view_node s n = (r n.id, s ++ [n.id]) := rfl

theorem log_generic_app (r : Nat → iteration) (s : List Nat) (n : node) :
    (log_visitor r).generic_node s n = (r n.id, s ++ [n.id]) := rfl

mutual

theorem log_visit_append : ∀ (r : Nat → iteration) (n : node) (s : List Nat),
    visit (log_visitor r) n s =
      ((visit (log_visitor r) n []).1, s ++ visit_log r n)
  | r, node.inner i st fl cs, s => by
    have hca := log_children_append r cs (s ++ [i])
    have hcb := log_children_append r cs [i]
    cases hr : r i
    · simp [visit_log, visit, log_inner_app, node.id, hr]
    · simp only [visit_log, visit, log_inner_app, node.id, hr,
        List.nil_append, hca, hcb]
      cases hb : (visit_children (log_visitor r) cs []).1 <;> simp
    · simp [visit_log, visit, log_inner_app, node.id, hr]
  | r, node.view i st fl, s => by
    cases hr : r i <;>
      simp [visit_log, visit, log_view_app, node.id, hr, leaf_result]
  | r, node.generic i st fl, s => by
    cases hr : r i <;>
      simp [visit_log, visit, log_generic_app, node.id, hr, leaf_result]

theorem log_children_append :
    ∀ (r : Nat → iteration) (cs : List node) (s : List Nat),
    visit_children (log_visitor r) cs s =
      ((visit_children (log_visitor r) cs []).1,
       s ++ (visit_children (log_visitor r) cs []).2)
  | r, [], s => by simp [visit_children]
  | r, c :: rest, s => by
    have hv := log_visit_append r c s
    have hr1 := log_children_append r rest (s ++ visit_log r c)
    have hr0 := log_children_append r rest (visit_log r c)
    rcases hq : visit (log_visitor r) c [] with ⟨it, L⟩
    have hL : visit_log r c = L := by rw [visit_log, hq]
    rw [hq] at hv
    rcases hw : visit_children (log_visitor r) rest [] with ⟨b, M⟩
    rw [hw] at hr1 hr0
    rw [hL] at hv hr1 hr0
    simp only [visit_children, hv, hq]
    cases it
    · simp
    · simp [hr1, hr0, List.append_assoc]
    · simp [hr1, hr0, List.append_assoc]

end

theorem log_children_char (r : Nat → iteration) : ∀ (cs : List node),
    visit_children (log_visitor r) cs [] =
      (cs.any (stops r),
       ((cs.take (cs.findIdx (stops r) + 1)).map (visit_log r)).flatten)
  | [] => by simp [visit_children]
  | c :: rest => by
    have ih := log_children_char r rest
    rcases hq : visit (log_visitor r) c [] with ⟨it, L⟩
    have hL : visit_log r c = L := by rw [visit_log, hq]
    have hstops : stops r c = decide (it = iteration.STOP) := by
      rw [stops, hq]
    have happ := log_children_append r rest L
    rw [ih] at happ
    simp only [visit_children, hq, List.any_cons, List.findIdx_cons, hstops,
      hL]
    cases it
    · simp [hL]
    · simp only [happ]
      simp [List.take_succ_cons, hL]
    · simp only [happ]
      simp [List.take_succ_cons, hL]

theorem collect_eq_active_preorder (root : node) :
    collect root = active_preorder root := by
  rw [collect, collect_visit_eq root [], active_preorder]
  simp

theorem find_first_eq (lf : Nat → Nat → Option Nat) :
    ∀ (cs : List node) (p : Nat),
    find_first lf cs p = cs.findSome? (fun c => find_node_at lf c p)
  | [], p => by simp [find_first]
  | c :: rest, p => by
    have ih := find_first_eq lf rest p
    cases hc : find_node_at lf c p <;>
      simp [find_first, List.findSome?_cons, hc, ih]

/-- C1: for every floating inner node and proposed child list,
`set_children_list` succeeds iff the structural subsequence of the current
children equals, identity- and order-wise, that of the proposal; on
failure the stored children (and parents) are unchanged reference for
reference, on success the stored children become exactly the proposal. -/
theorem set_children_list_spec (self : Nat) (children : List node)
    (parent : Nat → Option Nat) (new_list : List node) :
    ((set_children_list self children parent new_list).1 = true ↔
      extract_structure_nodes children = extract_structure_nodes new_list) ∧
    ((set_children_list self children parent new_list).1 = false →
      (set_children_list self children parent new_list).2.1 = children ∧
      (set_children_list self children parent new_list).2.2 = parent) ∧
    ((set_children_list self children parent new_list).1 = true →
      (set_children_list self children parent new_list).2.1 = new_list) := by
  by_cases hEq :
      extract_structure_nodes children = extract_structure_nodes new_list
  · simp [set_children_list, hEq, set_children_unchecked]
  · simp [set_children_list, hEq]

/-- Witness for C1: a replacement dropping the structural node with id 1
fails and leaves the children untouched; a replacement preserving it
succeeds and installs exactly the proposed list. -/
theorem set_children_list_spec_witness :
    (set_children_list 5 [node.view 1 true 0] (fun _ => none) []).2.1 =
      [node.view 1 true 0] ∧
    (set_children_list 5 [node.view 1 true 0] (fun _ => none)
        [node.view 3 false 0, node.view 1 true 0]).2.1 =
      [node.view 3 false 0, node.view 1 true 0] :=
  ⟨((set_children_list_spec 5 [node.view 1 true 0] (fun _ => none) []).2.1
      (by simp [set_children_list, extract_structure_nodes,
        node.is_structure_node, node.id])).1,
   (set_children_list_spec 5 [node.view 1 true 0] (fun _ => none)
        [node.view 3 false 0, node.view 1 true 0]).2.2
      (by simp [set_children_list, extract_structure_nodes,
        node.is_structure_node, node.id])⟩

/-- C9: replacing a child list sets the parent reference of every node of
the new list to the owner, leaves every other parent entry untouched —
so a node dropped by the replacement keeps its stale parent pointer to
the former owner — while the former owner no longer lists it as a
child. -/
theorem set_children_unchecked_parent_spec (self : Nat)
    (parent : Nat → Option Nat) (new_list : List node) :
    (∀ n ∈ new_list,
      (set_children_unchecked self parent new_list).2 n.id = some self) ∧
    (∀ x, x ∉ new_list.map node.id →
      (set_children_unchecked self parent new_list).2 x = parent x) ∧
    (∀ x, x ∉ new_list.map node.id → parent x = some self →
      (set_children_unchecked self parent new_list).2 x = some self ∧
      x ∉ ((set_children_unchecked self parent new_list).1.map node.id)) := by
  refine ⟨?_, ?_, ?_⟩
  · intro n hn
    simp only [set_children_unchecked]
    rw [if_pos (List.mem_map_of_mem node.id hn)]
  · intro x hx
    simp only [set_children_unchecked]
    rw [if_neg hx]
  · intro x hx hp
    refine ⟨?_, hx⟩
    simp only [set_children_unchecked]
    rw [if_neg hx, hp]

/-- Witness for C9: node 3 was a child of owner 9; after a replacement
that drops it, its parent entry still reads 9 while the new child list no
longer contains it, and the sole new child 1 now has parent 9. -/
theorem set_children_unchecked_parent_spec_witness :
    ((set_children_unchecked 9 (fun x => if x = 3 then some 9 else none)
        [node.view 1 false 0]).2 3 = some 9 ∧
      3 ∉ ((set_children_unchecked 9 (fun x => if x = 3 then some 9 else none)
        [node.view 1 false 0]).1.map node.id)) ∧
    (set_children_unchecked 9 (fun x => if x = 3 then some 9 else none)
        [node.view 1 false 0]).2 (node.view 1 false 0).id = some 9 :=
  ⟨(set_children_unchecked_parent_spec 9
      (fun x => if x = 3 then some 9 else none) [node.view 1 false 0]).2.2 3
      (by simp [node.id]) (by simp),
   (set_children_unchecked_parent_spec 9
      (fun x => if x = 3 then some 9 else none) [node.view 1 false 0]).1
      (node.view 1 false 0) (by simp)⟩

/-- C4: key events are offered to the active keyboard nodes in list
order; the offering stops with the first handler returning CONSUME, so
the invoked sequence is exactly the CONSUME-free prefix plus the first
consumer if any; an empty active set invokes nobody and is not an
error. -/
theorem handle_key_spec (h : Nat → keyboard_action) (l : List Nat) :
    handle_key h [] = [] ∧
    handle_key h l =
      l.takeWhile (fun n => decide (h n ≠ keyboard_action.CONSUME)) ++
        (l.dropWhile (fun n => decide (h n ≠ keyboard_action.CONSUME))).take 1
    := by
  refine ⟨rfl, ?_⟩
  induction l with
  | nil => rfl
  | cons n rest ih =>
    cases hn : h n <;>
      simp [handle_key, List.takeWhile_cons, List.dropWhile_cons, hn, ih]

/-- C6: an inner node's `find_node_at` returns the first non-empty result
of its children, queried in list order, and none when no child matches;
in particular a root whose two output nodes have empty static and
dynamic regions answers none for every point, whatever the leaf
hit-tests are. -/
theorem find_node_at_spec (lf : Nat → Nat → Option Nat) (i : Nat)
    (st : Bool) (fl : Nat) (cs : List node) (p : Nat) :
    find_node_at lf (node.inner i st fl cs) p =
      cs.findSome? (fun c => find_node_at lf c p) ∧
    (∀ q, find_node_at lf two_outputs_root q = none) := by
  constructor
  · simp [find_node_at, find_first_eq]
  · intro q
    simp [two_outputs_root, output_node_t, find_node_at, find_first]

/-- C5 counterexample: the claim says a fresh root's child list orders
the layer nodes lowest to highest priority, i.e. ids `[0, ..., 7]` in the
spec's fixed enumeration (background = 0, ..., minimized = 7); the
constructor actually pushes them in the opposite order. -/
theorem root_children_not_lowest_first :
    ¬ (root_children.map node.id = List.range ALL_LAYERS) := by decide

/-- C5 (amended): a fresh root owns exactly one structural floating inner
node per layer of the fixed enumeration, but its child list orders them
from the highest enumeration index down to the lowest (minimized first,
background last), and every layer node's parent reference points at the
root. -/
theorem root_children_layers_spec :
    root_children.map node.id = (List.range ALL_LAYERS).reverse ∧
    root_children.length = ALL_LAYERS ∧
    root_children.all (fun c => c.is_structure_node) = true ∧
    root_children.all (fun c => c.get_children.isEmpty) = true ∧
    ((List.range ALL_LAYERS).all
      (fun k => (root_children.map node.id).contains k)) = true ∧
    (∀ rid k, k < ALL_LAYERS → root_parent rid k = some rid) := by
  refine ⟨by decide, by decide, by decide, by decide, by decide, ?_⟩
  intro rid k hk
  have hk8 : k < 8 := hk
  interval_cases k <;>
    simp [root_parent, set_children_unchecked, root_children, root_build,
      mk_layer, node.id, ALL_LAYERS]

/-- Witness for C5 (amended): layer node 0 (background) of a root with
identity 100 has its parent reference set to the root. -/
theorem root_children_layers_spec_witness :
    root_parent 100 0 = some 100 :=
  root_children_layers_spec.2.2.2.2.2 100 0 (by decide)

/-- C2: one `update()` pass collects the focus-eligible nodes by a full
pre-order traversal that never short-circuits, then notifies: a node of
the previous active set missing from the new one gets exactly one
keyboard-leave, a node of the new set missing from the previous one gets
exactly one keyboard-enter, a node in both gets neither, and every leave
precedes every enter; the collected list becomes the stored active
set. -/
theorem update_active_nodes_spec (prev : List Nat) (root : node) :
    ((update_active_nodes prev root).2 = collect root) ∧
    (∀ x, x ∈ prev → x ∉ collect root →
      ((update_active_nodes prev root).1).count (focus_event.leave x) = 1) ∧
    (∀ x, x ∈ collect root → x ∉ prev →
      ((update_active_nodes prev root).1).count (focus_event.enter x) = 1) ∧
    (∀ x, x ∈ prev → x ∈ collect root →
      ((update_active_nodes prev root).1).count (focus_event.leave x) = 0 ∧
      ((update_active_nodes prev root).1).count (focus_event.enter x) = 0) ∧
    (∃ L E, (update_active_nodes prev root).1 = L ++ E ∧
      (∀ e ∈ L, ∃ x, e = focus_event.leave x) ∧
      (∀ e ∈ E, ∃ x, e = focus_event.enter x)) ∧
    collect root = active_preorder root := by
  have hinjL : Function.Injective focus_event.leave := by
    intro a b hab
    injection hab
  have hinjE : Function.Injective focus_event.enter := by
    intro a b hab
    injection hab
  have hev : (update_active_nodes prev root).1 =
      ((prev.dedup).filter
          (fun x => decide (x ∉ (collect root).dedup))).map
        focus_event.leave ++
      (((collect root).dedup).filter
          (fun x => decide (x ∉ prev.dedup))).map focus_event.enter := rfl
  refine ⟨rfl, ?_, ?_, ?_, ?_, collect_eq_active_preorder root⟩
  · intro x hxp hxc
    rw [hev, List.count_append]
    have hmem : x ∈ (prev.dedup).filter
        (fun x => decide (x ∉ (collect root).dedup)) :=
      List.mem_filter.mpr ⟨List.mem_dedup.mpr hxp,
        by simpa [List.mem_dedup] using hxc⟩
    have h1 : (((prev.dedup).filter
        (fun x => decide (x ∉ (collect root).dedup))).map
          focus_event.leave).count (focus_event.leave x) = 1 := by
      rw [List.count_map_of_injective _ _ hinjL]
      exact List.count_eq_one_of_mem
        ((List.nodup_dedup prev).filter _) hmem
    have h0 : ((((collect root).dedup).filter
        (fun x => decide (x ∉ prev.dedup))).map
          focus_event.enter).count (focus_event.leave x) = 0 :=
      List.count_eq_zero.mpr (by simp)
    omega
  · intro x hxc hxp
    rw [hev, List.count_append]
    have hmem : x ∈ ((collect root).dedup).filter
        (fun x => decide (x ∉ prev.dedup)) :=
      List.mem_filter.mpr ⟨List.mem_dedup.mpr hxc,
        by simpa [List.mem_dedup] using hxp⟩
    have h1 : ((((collect root).dedup).filter
        (fun x => decide (x ∉ prev.dedup))).map
          focus_event.enter).count (focus_event.enter x) = 1 := by
      rw [List.count_map_of_injective _ _ hinjE]
      exact List.count_eq_one_of_mem
        ((List.nodup_dedup (collect root)).filter _) hmem
    have h0 : ((((prev.dedup)).filter
        (fun x => decide (x ∉ (collect root).dedup))).map
          focus_event.leave).count (focus_event.enter x) = 0 :=
      List.count_eq_zero.mpr (by simp)
    omega
  · intro x hxp hxc
    rw [hev, List.count_append, List.count_append]
    have hxA : x ∉ (prev.dedup).filter
        (fun x => decide (x ∉ (collect root).dedup)) := by
      intro hx
      have := (List.mem_filter.mp hx).2
      simp [List.mem_dedup, hxc] at this
    have hxB : x ∉ ((collect root).dedup).filter
        (fun x => decide (x ∉ prev.dedup)) := by
      intro hx
      have := (List.mem_filter.mp hx).2
      simp [List.mem_dedup, hxp] at this
    constructor
    · have h1 : (((prev.dedup).filter
          (fun x => decide (x ∉ (collect root).dedup))).map
            focus_event.leave).count (focus_event.leave x) = 0 := by
        rw [List.count_map_of_injective _ _ hinjL]
        exact List.count_eq_zero.mpr hxA
      have h0 : ((((collect root).dedup).filter
          (fun x => decide (x ∉ prev.dedup))).map
            focus_event.enter).count (focus_event.leave x) = 0 :=
        List.count_eq_zero.mpr (by simp)
      omega
    · have h1 : ((((collect root).dedup).filter
          (fun x => decide (x ∉ prev.dedup))).map
            focus_event.enter).count (focus_event.enter x) = 0 := by
        rw [List.count_map_of_injective _ _ hinjE]
        exact List.count_eq_zero.mpr hxB
      have h0 : (((prev.dedup).filter
          (fun x => decide (x ∉ (collect root).dedup))).map
            focus_event.leave).count (focus_event.enter x) = 0 :=
        List.count_eq_zero.mpr (by simp)
      omega
  · refine ⟨_, _, hev, ?_, ?_⟩
    · intro e he
      obtain ⟨x, _, rfl⟩ := List.mem_map.mp he
      exact ⟨x, rfl⟩
    · intro e he
      obtain ⟨x, _, rfl⟩ := List.mem_map.mp he
      exact ⟨x, rfl⟩

/-- Witness for C2: with previous active set `[2]` over a root (id 1,
focus-eligible) with no children, the single stale node 2 receives
exactly one leave and the newly eligible root exactly one enter. -/
theorem update_active_nodes_spec_witness :
    ((update_active_nodes [2] (node.inner 1 true 1 [])).1).count
        (focus_event.leave 2) = 1 ∧
    ((update_active_nodes [2] (node.inner 1 true 1 [])).1).count
        (focus_event.enter 1) = 1 :=
  ⟨(update_active_nodes_spec [2] (node.inner 1 true 1 [])).2.1 2
      (by decide)
      (by
        rw [collect_eq_active_preorder]
        simp [active_preorder, preorder, preorder_list, active_ids,
          node.flags, node.id, ACTIVE_KEYBOARD]),
   (update_active_nodes_spec [2] (node.inner 1 true 1 [])).2.2.1 1
      (by
        rw [collect_eq_active_preorder]
        simp [active_preorder, preorder, preorder_list, active_ids,
          node.flags, node.id, ACTIVE_KEYBOARD])
      (by decide)⟩

/-- C3: visiting an inner node invokes its callback first (pre-order);
STOP returns immediately with no child visited; SKIP_CHILDREN skips the
children and reports ALL so traversal continues with the siblings; ALL
visits the children in list order up to and including the first child
whose visit returns STOP — nothing after it is visited — and the verdict
is STOP exactly when some child stopped.  Observed through the logging
visitor: the log of the traversal is the node itself followed by the
logs of the children actually visited. -/
theorem inner_visit_spec (r : Nat → iteration) (i : Nat) (st : Bool)
    (fl : Nat) (cs : List node) :
    (r i = iteration.STOP →
      visit (log_visitor r) (node.inner i st fl cs) [] =
        (iteration.STOP, [i])) ∧
    (r i = iteration.SKIP_CHILDREN →
      visit (log_visitor r) (node.inner i st fl cs) [] =
        (iteration.ALL, [i])) ∧
    (r i = iteration.ALL →
      visit (log_visitor r) (node.inner i st fl cs) [] =
        ((if cs.any (stops r) then iteration.STOP else iteration.ALL),
         i :: ((cs.take (cs.findIdx (stops r) + 1)).map
           (visit_log r)).flatten)) := by
  refine ⟨?_, ?_, ?_⟩ <;> intro hr
  · simp [visit, log_inner_app, node.id, hr]
  · simp [visit, log_inner_app, node.id, hr]
  · have hch := log_children_char r cs
    have happ := log_children_append r cs [i]
    rw [hch] at happ
    simp only [visit, log_inner_app, node.id, hr, List.nil_append, happ]
    cases hb : cs.any (stops r) <;> simp

/-- Witness for C3: a STOP answer at the inner node visits nothing else;
a SKIP_CHILDREN answer skips the child; an ALL answer visits the child
and reports ALL when no child stops. -/
theorem inner_visit_spec_witness :
    visit (log_visitor (fun _ => iteration.STOP))
        (node.inner 0 true 0 [node.view 5 false 0]) [] =
      (iteration.STOP, [0]) ∧
    visit (log_visitor (fun _ => iteration.SKIP_CHILDREN))
        (node.inner 0 true 0 [node.view 5 false 0]) [] =
      (iteration.ALL, [0]) ∧
    visit (log_visitor (fun _ => iteration.ALL))
        (node.inner 0 true 0 [node.view 5 false 0]) [] =
      (iteration.ALL, [0, 5]) := by
  refine ⟨(inner_visit_spec (fun _ => iteration.STOP) 0 true 0
      [node.view 5 false 0]).1 rfl,
    (inner_visit_spec (fun _ => iteration.SKIP_CHILDREN) 0 true 0
      [node.view 5 false 0]).2.1 rfl, ?_⟩
  have h := (inner_visit_spec (fun _ => iteration.ALL) 0 true 0
    [node.view 5 false 0]).2.2 rfl
  rw [h]
  simp [stops, visit_log, visit, log_view_app, leaf_result, node.id]

/-- C7: `update()` is idempotent absent mutations: running
`update_active_nodes` again on the stored active set produced by a first
run emits no leave and no enter notification and keeps the stored active
set unchanged. -/
theorem update_idempotent (prev : List Nat) (root : node) :
    update_active_nodes ((update_active_nodes prev root).2) root =
      ([], (update_active_nodes prev root).2) := by
  have h2 : (update_active_nodes prev root).2 = collect root := rfl
  rw [h2]
  have hA : ((collect root).dedup).filter
      (fun x => decide (x ∉ (collect root).dedup)) = [] := by
    rw [List.filter_eq_nil_iff]
    intro a ha
    simpa using ha
  simp [update_active_nodes, hA]

/-- C8: traversal-based collection is deterministic: two collection
passes over the same unmutated tree append exactly the same id list —
same ids, same count, same order — regardless of what was already in
either accumulator, and that list is the one a fresh pass produces. -/
theorem collect_pass_deterministic (root : node) (s1 s2 : List Nat) :
    ((visit collect_active_nodes root s1).2).drop s1.length =
      ((visit collect_active_nodes root s2).2).drop s2.length ∧
    ((visit collect_active_nodes root s1).2).drop s1.length =
      collect root := by
  have h1 := collect_visit_eq root s1
  have h2 := collect_visit_eq root s2
  have hc := collect_eq_active_preorder root
  constructor
  · simp [h1, h2, List.drop_left]
  · simp [h1, hc, active_preorder, List.drop_left]

end scene

/-- C10: every layer string reported by `list_views` is one of the nine
wire names; the desktop-widget layer is reported as "dew", never as
"desktop-widget"; a view without an output, or with an unrecognized
layer, is reported as "none". -/
theorem layer_field_spec :
    (∀ b l, view_layer_field b l ∈
      ["background", "bottom", "workspace", "top", "unmanaged", "lock",
       "dew", "minimized", "none"]) ∧
    view_layer_field true LAYER_DESKTOP_WIDGET = "dew" ∧
    view_layer_field true LAYER_DESKTOP_WIDGET ≠ "desktop-widget" ∧
    (∀ l, view_layer_field false l = "none") ∧
    (∀ l, l ∉ [LAYER_BACKGROUND, LAYER_BOTTOM, LAYER_WORKSPACE, LAYER_TOP,
        LAYER_UNMANAGED, LAYER_LOCK, LAYER_DESKTOP_WIDGET,
        LAYER_MINIMIZED] →
      view_layer_field true l = "none") := by
  refine ⟨?_, by decide, by decide, ?_, ?_⟩
  · intro b l
    unfold view_layer_field layer_to_string
    repeat' split
    all_goals simp
  · intro l
    rfl
  · intro l hl
    simp only [List.mem_cons, List.not_mem_nil, or_false, not_or] at hl
    obtain ⟨h1, h2, h3, h4, h5, h6, h7, h8⟩ := hl
    simp [view_layer_field, layer_to_string, h1, h2, h3, h4, h5, h6, h7, h8]

/-- Witness for C10: the unrecognized layer value 3 is reported as
"none". -/
theorem layer_field_spec_witness : view_layer_field true 3 = "none" :=
  layer_field_spec.2.2.2.2 3 (by decide)

end wf